import Mathlib

/-!
Verification of the torrent streaming engine (torrent-engine) against its
specification.  The definitions below are a shallow embedding of the
engine's TypeScript source: JavaScript numbers are modelled as exact
rationals (ℚ), piece indices as integers (ℤ), the in-memory chunk arrays
as lists of optional buffer sizes, and the HTTP / IPC handlers and the
sliding-window scheduler tick as pure functions from their input state to
a result record that also exposes the engine calls they make
(pause / resume / critical).
-/

/-! ## Configuration constants (torrent-engine, CONFIGURATION section) -/

def MAX_BUFFER_SIZE_MB : ℚ := 70

def BUFFER_BEHIND_SECONDS : ℚ := 10

def HARD_LIMIT_BUFFER_MB : ℚ := 75

/-- Quality tiers of the BUFFER_CONFIG table. -/
inductive QualityTier where
  | q4K
  | q1080pHigh
  | q1080p
  | q720p
deriving DecidableEq, Repr

/-- One row of the BUFFER_CONFIG table. -/
structure TierConfig where
  minBufferSeconds : ℚ
  maxBufferSeconds : ℚ
  criticalBufferSeconds : ℚ
  bitrateThreshold : ℚ
deriving DecidableEq, Repr

/-- The BUFFER_CONFIG table of the source. -/
def BUFFER_CONFIG : QualityTier → TierConfig
  | QualityTier.q4K => ⟨15, 45, 5, 50 * 1024 * 1024 / 8⟩
  | QualityTier.q1080pHigh => ⟨20, 60, 8, 20 * 1024 * 1024 / 8⟩
  | QualityTier.q1080p => ⟨30, 90, 10, 8 * 1024 * 1024 / 8⟩
  | QualityTier.q720p => ⟨45, 120, 15, 0⟩

/-- `detectQualityTier(fileSizeBytes)` from the source. -/
def detectQualityTier (fileSizeBytes : ℚ) : QualityTier :=
  let fileSizeGB := fileSizeBytes / (1024 * 1024 * 1024)
  if fileSizeGB > 30 then QualityTier.q4K
  else if fileSizeGB > 15 then QualityTier.q1080pHigh
  else if fileSizeGB > 5 then QualityTier.q1080p
  else QualityTier.q720p

/-- The record returned by `getBufferConfig`. -/
structure BufferConfig where
  tier : QualityTier
  bytesPerSecond : ℚ
  behindBytes : ℚ
  aheadBytes : ℚ
  behindSeconds : ℚ
  aheadSeconds : ℚ
  criticalBufferSeconds : ℚ
  estimatedDuration : ℚ
deriving DecidableEq, Repr

/-- `getBufferConfig(fileSizeBytes)` from the source. -/
def getBufferConfig (fileSizeBytes : ℚ) : BufferConfig :=
  let tier := detectQualityTier fileSizeBytes
  let config := BUFFER_CONFIG tier
  let estimatedDuration : ℚ :=
    if fileSizeBytes > 10000000000 then 7200
    else if fileSizeBytes > 5000000000 then 5400
    else if fileSizeBytes > 2000000000 then 3600
    else if fileSizeBytes > 500000000 then 2400
    else 1200
  let bytesPerSecond := fileSizeBytes / estimatedDuration
  let maxBufferBytes : ℚ := MAX_BUFFER_SIZE_MB * 1024 * 1024
  let desiredAheadBytes := config.maxBufferSeconds * bytesPerSecond
  let behindBytes := BUFFER_BEHIND_SECONDS * bytesPerSecond
  let actualAheadBytes := min desiredAheadBytes (maxBufferBytes - behindBytes)
  let actualAheadSeconds := actualAheadBytes / bytesPerSecond
  { tier := tier
    bytesPerSecond := bytesPerSecond
    behindBytes := behindBytes
    aheadBytes := actualAheadBytes
    behindSeconds := BUFFER_BEHIND_SECONDS
    aheadSeconds := actualAheadSeconds
    criticalBufferSeconds := config.criticalBufferSeconds
    estimatedDuration := estimatedDuration }

/-! ## Raw HTTP range server (`handleRawRequest`)

A request is modelled by the file size of the currently selected file, the
parsed `Range` header (`some (s, some e)` for `bytes=s-e`, `some (s, none)`
for `bytes=s-`, `none` when absent) and whether the method is `HEAD`.
The response is the status line together with the header values the code
writes and, for 206 `GET`s, the bounds of the engine read stream piped as
the body. -/

/-- The observable response of `handleRawRequest` (file-loaded case). -/
inductive RawResponse where
  /-- 200 full-file response; `body = some ()` unless the method was HEAD. -/
  | r200 (contentLength : ℕ) (body : Option Unit)
  /-- 206 partial response: Content-Range `bytes crStart-crEnd/crTotal`,
  Content-Length, and the read-stream bounds piped as the body. -/
  | r206 (crStart crEnd : ℤ) (crTotal : ℕ) (contentLength : ℤ)
      (body : Option (ℤ × ℤ))
  /-- 416 with Content-Range `bytes */crTotal`. -/
  | r416 (crTotal : ℕ)
deriving DecidableEq, Repr

/-- Whether a response is the 416 rejection. -/
def RawResponse.is416 : RawResponse → Bool
  | RawResponse.r416 _ => true
  | _ => false

/-- `handleRawRequest` from the source, range-handling part, for a loaded
file of length `fileSize`.  `rangeHdr = some (s, endSpec)` is the parsed
`Range: bytes=s-…` header. -/
def handleRawRequest (fileSize : ℕ) (rangeHdr : Option (ℤ × Option ℤ))
    (isHead : Bool) : RawResponse :=
  match rangeHdr with
  | some (s, endSpec) =>
    let requestedEnd : ℤ :=
      match endSpec with
      | some e => e
      | none => (fileSize : ℤ) - 1
    let endByte : ℤ := min requestedEnd ((fileSize : ℤ) - 1)
    if (fileSize : ℤ) ≤ s ∨ s < 0 ∨ endByte < s then
      RawResponse.r416 fileSize
    else
      RawResponse.r206 s endByte fileSize (endByte - s + 1)
        (if isHead then none else some (s, endByte))
  | none =>
    RawResponse.r200 fileSize (if isHead then none else some ())

/-- Spec-side correctness predicate for 206 responses (claim C2's words):
the Content-Range invariants `0 ≤ s ≤ e < N`, the Content-Length
arithmetic, and the body stream bounds. -/
def range206Correct (fileSize : ℕ) (isHead : Bool) : RawResponse → Prop
  | RawResponse.r206 crStart crEnd crTotal contentLength body =>
      0 ≤ crStart ∧ crStart ≤ crEnd ∧ crEnd < (fileSize : ℤ) ∧
      crTotal = fileSize ∧ contentLength = crEnd - crStart + 1 ∧
      (isHead = false → body = some (crStart, crEnd))
  | _ => True

/-! ## Engine state

Module-level mutable variables of the source that the scheduler tick and
the IPC handlers read, together with the per-torrent state (WebTorrent
fields and the `_`-prefixed fields the engine stores on the torrent). -/

/-- Module-level engine globals read by the tick:
`currentPlaybackTime`, `currentPlaybackBytes`, `estimatedBitrate`,
`isTranscoding`. -/
structure EngineGlobals where
  currentPlaybackTime : ℚ
  currentPlaybackBytes : ℤ
  estimatedBitrate : ℚ
  isTranscoding : Bool

/-- Per-torrent state: WebTorrent metadata, the selected file, the
memory-chunk-store array (`torrent.store.store.chunks`, entry `some n` is
a stored buffer of `n` bytes), the immediate-store buffer
(`torrent.store.mem`), the have-bitfield, the engine-managed flags
`_paused` / `_hardPaused`, the actual swarm pause state (toggled by
`torrent.pause()` / `torrent.resume()`), and the process-heap measurement
(`process.memoryUsage().heapUsed`, in MB) taken during the tick. -/
structure TorrentState where
  pieceLength : ℕ
  totalPieces : ℕ
  fileOffset : ℕ
  fileLength : ℕ
  cfg : BufferConfig
  chunks : List (Option ℕ)
  mem : List (Option ℕ)
  bitfield : ℕ → Bool
  pausedFlag : Bool
  hardPausedFlag : Bool
  enginePaused : Bool
  heapMB : ℚ

/-! ## Chunk store accounting and eviction -/

/-- `chunks[i].length || pieceLength`: bytes attributed to one store
entry when the tick counts memory. -/
def entryBytes (pieceLength : ℚ) : Option ℕ → ℚ
  | none => 0
  | some sz => if sz = 0 then pieceLength else (sz : ℚ)

/-- Total bytes the tick counts for a chunk array. -/
def countBytes (pieceLength : ℚ) (l : List (Option ℕ)) : ℚ :=
  (l.map (entryBytes pieceLength)).sum

/-- `chunks[i]` with JavaScript out-of-bounds semantics. -/
def chunkAt (l : List (Option ℕ)) (i : ℤ) : Option ℕ :=
  if 0 ≤ i then l.getD i.toNat none else none

/-- A null-out loop over an array: entry `i` (counting from `start`) is
set to `none` when `P i` holds.  All three cleanup loops of the tick are
instances of this. -/
def maskList (P : ℕ → Prop) [DecidablePred P] : ℕ → List (Option ℕ) → List (Option ℕ)
  | _, [] => []
  | i, c :: rest => (if P i then none else c) :: maskList P (i + 1) rest

/-- The two regular-cleanup chunk loops: null every `chunks[i]` with
`i < windowStart` or `i > windowEnd`. -/
def cleanChunks (windowStart windowEnd : ℤ) (chunks : List (Option ℕ)) :
    List (Option ℕ) :=
  maskList (fun i => (i : ℤ) < windowStart ∨ windowEnd < (i : ℤ)) 0 chunks

/-- The two regular-cleanup `immediateMem` loops: the before-window loop
runs up to `windowStart` unconditionally, the after-window loop is
bounded by `chunks.length`. -/
def cleanMemRegular (windowStart windowEnd : ℤ) (chunksLen : ℕ)
    (mem : List (Option ℕ)) : List (Option ℕ) :=
  maskList (fun i => (i : ℤ) < windowStart ∨ (windowEnd < (i : ℤ) ∧ i < chunksLen)) 0 mem

/-- The emergency-cleanup `immediateMem` loop: one loop bounded by
`chunks.length` over all indices outside the window. -/
def cleanMemEmergency (windowStart windowEnd : ℤ) (chunksLen : ℕ)
    (mem : List (Option ℕ)) : List (Option ℕ) :=
  maskList (fun i => ((i : ℤ) < windowStart ∨ windowEnd < (i : ℤ)) ∧ i < chunksLen) 0 mem

/-! ## Sliding-window scheduler tick (`startSlidingWindow` body) -/

/-- `bytesPerSecond` as derived at the top of the tick: the estimator's
observed bitrate when positive, else the config's initial estimate. -/
def tickBytesPerSecond (g : EngineGlobals) (t : TorrentState) : ℚ :=
  if 0 < g.estimatedBitrate then g.estimatedBitrate else t.cfg.bytesPerSecond

/-- The read-head byte of the tick: byte-offset wins when non-zero, else
playback time times bitrate, clamped to `[0, file.length]`. -/
def readHeadByte (g : EngineGlobals) (fileOffset fileLength : ℕ) (bps : ℚ) : ℚ :=
  let currentByte0 : ℚ :=
    if 0 < g.currentPlaybackBytes then (g.currentPlaybackBytes : ℚ) - (fileOffset : ℚ)
    else if 0 < g.currentPlaybackTime then ((⌊g.currentPlaybackTime * bps⌋ : ℤ) : ℚ)
    else 0
  max 0 (min currentByte0 (fileLength : ℚ))

/-- The window geometry computed at the top of each tick. -/
structure WindowData where
  bytesPerSecond : ℚ
  currentByte : ℚ
  currentPiece : ℤ
  filePieceStart : ℤ
  filePieceEnd : ℤ
  piecesBehind : ℤ
  piecesAhead : ℤ
  windowStart : ℤ
  windowEnd : ℤ

/-- Lines of the tick that derive `currentPiece`, the file piece range
and the sliding window `[windowStart, windowEnd]`. -/
def computeWindow (g : EngineGlobals) (t : TorrentState) : WindowData :=
  let pieceLength : ℚ := t.pieceLength
  let fileOffset : ℚ := t.fileOffset
  let bytesPerSecond := tickBytesPerSecond g t
  let currentByte := readHeadByte g t.fileOffset t.fileLength bytesPerSecond
  let currentPiece : ℤ := ⌊(fileOffset + currentByte) / pieceLength⌋
  let filePieceStart : ℤ := ⌊fileOffset / pieceLength⌋
  let filePieceEnd : ℤ := ⌈(fileOffset + (t.fileLength : ℚ)) / pieceLength⌉ - 1
  let maxBufferBytes : ℚ := MAX_BUFFER_SIZE_MB * 1024 * 1024
  let behindBytes := min (BUFFER_BEHIND_SECONDS * bytesPerSecond) (maxBufferBytes * (1 / 10))
  let aheadBytes := min (maxBufferBytes * (9 / 10)) t.cfg.aheadBytes
  let piecesBehind : ℤ := ⌈behindBytes / pieceLength⌉
  let piecesAhead : ℤ := ⌈aheadBytes / pieceLength⌉
  { bytesPerSecond := bytesPerSecond
    currentByte := currentByte
    currentPiece := currentPiece
    filePieceStart := filePieceStart
    filePieceEnd := filePieceEnd
    piecesBehind := piecesBehind
    piecesAhead := piecesAhead
    windowStart := max filePieceStart (currentPiece - piecesBehind)
    windowEnd := min filePieceEnd (currentPiece + piecesAhead) }

/-- Result of the memory-cleanup / hard-limit section of the tick
(counting, the always-on cleanup, the hard-limit check with emergency
eviction, the recount, and the hard-pause resume check).
`hardPauseCalled` / `hardResumeCalled` record the `torrent.pause()` /
`torrent.resume()` calls this section makes. -/
structure MemCtrl where
  chunks : List (Option ℕ)
  mem : List (Option ℕ)
  hardPausedFlag : Bool
  enginePaused : Bool
  hardPauseCalled : Bool
  hardResumeCalled : Bool
  storedChunksBytes : ℚ
  actualMemoryBytes : ℚ

/-- The memory-cleanup / hard-limit section of the tick. -/
def memoryControl (pieceLength : ℚ) (windowStart windowEnd : ℤ) (heapMB : ℚ)
    (chunks mem : List (Option ℕ)) (hardFlag enginePaused : Bool) : MemCtrl :=
  let storedChunksBytes := countBytes pieceLength chunks + countBytes pieceLength mem
  let hardLimitBytes : ℚ := HARD_LIMIT_BUFFER_MB * 1024 * 1024
  let chunks1 := if chunks.length = 0 then chunks else cleanChunks windowStart windowEnd chunks
  let mem1 := if chunks.length = 0 then mem
    else cleanMemRegular windowStart windowEnd chunks.length mem
  if hardLimitBytes < storedChunksBytes ∨ (500 : ℚ) < heapMB then
    let chunks2 := cleanChunks windowStart windowEnd chunks1
    let mem2 := cleanMemEmergency windowStart windowEnd chunks.length mem1
    let actualMemoryBytes := countBytes pieceLength chunks2
    if actualMemoryBytes < MAX_BUFFER_SIZE_MB * 1024 * 1024 * (8 / 10) then
      { chunks := chunks2, mem := mem2, hardPausedFlag := false, enginePaused := false,
        hardPauseCalled := !hardFlag, hardResumeCalled := true,
        storedChunksBytes := storedChunksBytes, actualMemoryBytes := actualMemoryBytes }
    else
      { chunks := chunks2, mem := mem2, hardPausedFlag := true,
        enginePaused := if hardFlag then enginePaused else true,
        hardPauseCalled := !hardFlag, hardResumeCalled := false,
        storedChunksBytes := storedChunksBytes, actualMemoryBytes := actualMemoryBytes }
  else
    let actualMemoryBytes := countBytes pieceLength chunks1
    if hardFlag = true ∧ actualMemoryBytes < MAX_BUFFER_SIZE_MB * 1024 * 1024 * (8 / 10) then
      { chunks := chunks1, mem := mem1, hardPausedFlag := false, enginePaused := false,
        hardPauseCalled := false, hardResumeCalled := true,
        storedChunksBytes := storedChunksBytes, actualMemoryBytes := actualMemoryBytes }
    else
      { chunks := chunks1, mem := mem1, hardPausedFlag := hardFlag,
        enginePaused := enginePaused,
        hardPauseCalled := false, hardResumeCalled := false,
        storedChunksBytes := storedChunksBytes, actualMemoryBytes := actualMemoryBytes }

/-- The forward bitfield scan of the tick:
`for (i = currentPiece; i <= windowEnd && i < totalPieces; i++)`,
recording the last consecutive have-bit as `bufferedEnd`. -/
def scanForward (bf : ℕ → Bool) (windowEnd total : ℤ) :
    ℕ → ℤ → ℤ → ℤ
  | 0, _, best => best
  | fuel + 1, i, best =>
    if i ≤ windowEnd ∧ i < total then
      if bf i.toNat then scanForward bf windowEnd total fuel (i + 1) i else best
    else best

/-- The backward bitfield scan of the tick:
`for (i = currentPiece; i >= windowStart && i >= 0; i--)`. -/
def scanBackward (bf : ℕ → Bool) (windowStart : ℤ) :
    ℕ → ℤ → ℤ → ℤ
  | 0, _, best => best
  | fuel + 1, i, best =>
    if windowStart ≤ i ∧ 0 ≤ i then
      if bf i.toNat then scanBackward bf windowStart fuel (i - 1) i else best
    else best

/-- Result of the soft pause/resume section at the end of the tick.
`softPauseCalled` / `softResumeCalled` record the `torrent.pause()` /
`torrent.resume()` calls it makes. -/
structure SoftCtrl where
  pausedFlag : Bool
  enginePaused : Bool
  softPauseCalled : Bool
  softResumeCalled : Bool
  targetBufferSeconds : ℚ
  resumeThreshold : ℚ
  bufferFull : Bool

/-- The soft pause/resume section of the tick
(`targetBufferSeconds = bufferConfig.aheadSeconds || 60`, pause when the
buffer is full unless transcoding or hard-paused, resume at half the
target or when transcoding). -/
def softControl (aheadSecondsCfg bufferedAheadSeconds : ℚ)
    (pausedFlag hardFlag transcoding enginePaused : Bool) : SoftCtrl :=
  let targetBufferSeconds := if aheadSecondsCfg = 0 then 60 else aheadSecondsCfg
  let resumeThreshold := targetBufferSeconds * (1 / 2)
  let bufferFullB : Bool := if targetBufferSeconds ≤ bufferedAheadSeconds then true else false
  if targetBufferSeconds ≤ bufferedAheadSeconds ∧ pausedFlag = false ∧
      transcoding = false ∧ hardFlag = false then
    { pausedFlag := true, enginePaused := true,
      softPauseCalled := true, softResumeCalled := false,
      targetBufferSeconds := targetBufferSeconds, resumeThreshold := resumeThreshold,
      bufferFull := bufferFullB }
  else if pausedFlag = true ∧ hardFlag = false ∧
      (bufferedAheadSeconds < resumeThreshold ∨ transcoding = true) then
    { pausedFlag := false, enginePaused := false,
      softPauseCalled := false, softResumeCalled := true,
      targetBufferSeconds := targetBufferSeconds, resumeThreshold := resumeThreshold,
      bufferFull := bufferFullB }
  else
    { pausedFlag := pausedFlag, enginePaused := enginePaused,
      softPauseCalled := false, softResumeCalled := false,
      targetBufferSeconds := targetBufferSeconds, resumeThreshold := resumeThreshold,
      bufferFull := bufferFullB }

/-- Everything one scheduler tick computes and does, including the
post-tick torrent state and the engine calls made.  `ticked = false`
when the `!torrent.pieces || !torrent.pieceLength` guard fired. -/
structure TickResult where
  torrent : TorrentState
  currentByte : ℚ
  currentPiece : ℤ
  filePieceStart : ℤ
  filePieceEnd : ℤ
  windowStart : ℤ
  windowEnd : ℤ
  piecesBehind : ℤ
  piecesAhead : ℤ
  criticalCall : Option (ℤ × ℤ)
  storedChunksBytes : ℚ
  actualMemoryBytes : ℚ
  hardPauseCalled : Bool
  hardResumeCalled : Bool
  softPauseCalled : Bool
  softResumeCalled : Bool
  bufferedStart : ℤ
  bufferedEnd : ℤ
  bufferedAheadSeconds : ℚ
  targetBufferSeconds : ℚ
  bufferFull : Bool
  ticked : Bool

/-- One tick of `startSlidingWindow`'s interval body, as a pure function
of the engine globals and the torrent state. -/
def slidingWindowTick (g : EngineGlobals) (t : TorrentState) : TickResult :=
  if t.pieceLength = 0 ∨ t.totalPieces = 0 then
    { torrent := t, currentByte := 0, currentPiece := 0, filePieceStart := 0,
      filePieceEnd := 0, windowStart := 0, windowEnd := 0, piecesBehind := 0,
      piecesAhead := 0, criticalCall := none, storedChunksBytes := 0,
      actualMemoryBytes := 0, hardPauseCalled := false, hardResumeCalled := false,
      softPauseCalled := false, softResumeCalled := false, bufferedStart := 0,
      bufferedEnd := 0, bufferedAheadSeconds := 0, targetBufferSeconds := 0,
      bufferFull := false, ticked := false }
  else
    let w := computeWindow g t
    let crit : Option (ℤ × ℤ) :=
      if 0 ≤ w.currentPiece ∧ w.currentPiece < (t.totalPieces : ℤ) then
        some (w.currentPiece,
          min w.windowEnd (w.currentPiece + ⌈10 * w.bytesPerSecond / (t.pieceLength : ℚ)⌉))
      else none
    let m := memoryControl (t.pieceLength : ℚ) w.windowStart w.windowEnd t.heapMB
      t.chunks t.mem t.hardPausedFlag t.enginePaused
    let bufEnd := scanForward t.bitfield w.windowEnd (t.totalPieces : ℤ)
      (t.totalPieces + 1) w.currentPiece w.currentPiece
    let bufStart := scanBackward t.bitfield w.windowStart
      (t.totalPieces + 1) w.currentPiece w.currentPiece
    let bufferedAheadSeconds :=
      ((max 0 (bufEnd - w.currentPiece) : ℤ) : ℚ) * (t.pieceLength : ℚ) / w.bytesPerSecond
    let s := softControl t.cfg.aheadSeconds bufferedAheadSeconds
      t.pausedFlag m.hardPausedFlag g.isTranscoding m.enginePaused
    { torrent := { t with
        chunks := m.chunks
        mem := m.mem
        pausedFlag := s.pausedFlag
        hardPausedFlag := m.hardPausedFlag
        enginePaused := s.enginePaused }
      currentByte := w.currentByte
      currentPiece := w.currentPiece
      filePieceStart := w.filePieceStart
      filePieceEnd := w.filePieceEnd
      windowStart := w.windowStart
      windowEnd := w.windowEnd
      piecesBehind := w.piecesBehind
      piecesAhead := w.piecesAhead
      criticalCall := crit
      storedChunksBytes := m.storedChunksBytes
      actualMemoryBytes := m.actualMemoryBytes
      hardPauseCalled := m.hardPauseCalled
      hardResumeCalled := m.hardResumeCalled
      softPauseCalled := s.softPauseCalled
      softResumeCalled := s.softResumeCalled
      bufferedStart := bufStart
      bufferedEnd := bufEnd
      bufferedAheadSeconds := bufferedAheadSeconds
      targetBufferSeconds := s.targetBufferSeconds
      bufferFull := s.bufferFull
      ticked := true }

/-! ## Playback-update (seek) IPC handler -/

/-- Observable outcome of the `torrent:update-playback` handler. -/
structure SeekResult where
  playbackTime : ℚ
  pausedFlag : Bool
  hardPausedFlag : Bool
  enginePaused : Bool
  resumeCalled : Bool
  criticalCall : Option (ℤ × ℤ)
  wasSeek : Bool

/-- The `torrent:update-playback` handler (with a torrent and file
loaded): detect a seek (`|Δt| > 5`), clear the pause flags (resuming when
either was set), and mark up to `min(20, ⌈15·bps/pieceLength⌉)` pieces
critical from the seek position, clamped to `totalPieces − 1`. -/
def updatePlaybackHandler (time prevTime : ℚ) (t : TorrentState) : SeekResult :=
  if 5 < |time - prevTime| then
    let enginePaused1 := if t.hardPausedFlag then false else t.enginePaused
    let enginePaused2 := if t.pausedFlag then false else enginePaused1
    let bytesPerSecond := t.cfg.bytesPerSecond
    let seekBytePos : ℤ := ⌊time * bytesPerSecond⌋
    let seekPiece : ℤ := ⌊((t.fileOffset : ℚ) + (seekBytePos : ℚ)) / (t.pieceLength : ℚ)⌋
    let criticalPieces : ℤ := min 20 ⌈15 * bytesPerSecond / (t.pieceLength : ℚ)⌉
    { playbackTime := time, pausedFlag := false, hardPausedFlag := false,
      enginePaused := enginePaused2,
      resumeCalled := t.hardPausedFlag || t.pausedFlag,
      criticalCall :=
        if 0 ≤ seekPiece then
          some (seekPiece, min (seekPiece + criticalPieces) ((t.totalPieces : ℤ) - 1))
        else none,
      wasSeek := true }
  else
    { playbackTime := time, pausedFlag := t.pausedFlag,
      hardPausedFlag := t.hardPausedFlag, enginePaused := t.enginePaused,
      resumeCalled := false, criticalCall := none, wasSeek := false }

/-! ## The `torrent:stop` IPC handler -/

/-- Module-level control-surface state relevant to `torrent:stop`:
the current session (torrent with its store), the remux child, the two
intervals, and the playback/estimator variables `resetState` clears. -/
structure ControlState where
  session : Option TorrentState
  hasFfmpeg : Bool
  slidingActive : Bool
  statusActive : Bool
  currentPlaybackTime : ℚ
  currentPlaybackBytes : ℤ
  estimatedBitrate : ℚ
  lastBytePosition : ℤ
  lastByteTime : ℚ
  useTranscoding : Bool

/-- `resetState()` from the source (the session pointer fields
`currentTorrent` / `currentFile` are the `session` option here). -/
def resetState (c : ControlState) : ControlState :=
  { c with
    session := none
    currentPlaybackTime := 0
    currentPlaybackBytes := 0
    estimatedBitrate := 0
    lastBytePosition := 0
    lastByteTime := 0
    useTranscoding := false }

/-- Resident piece bytes: what the session's store holds; zero once the
store is destroyed with the session. -/
def residentBytes (c : ControlState) : ℚ :=
  match c.session with
  | none => 0
  | some t => countBytes (t.pieceLength : ℚ) t.chunks + countBytes (t.pieceLength : ℚ) t.mem

/-- The `torrent:stop` handler: kill the remux child, stop both
intervals, then — if a session exists — remove it with
`destroyStore: true` and reset state.  The returned Bool is `true` when
the handler's promise resolves. -/
def torrentStop (c : ControlState) : ControlState × Bool :=
  let c1 := { c with hasFfmpeg := false, slidingActive := false, statusActive := false }
  match c1.session with
  | some _ => (resetState c1, true)
  | none => (c1, true)

/-! ## Sample states used by witnesses and counterexamples -/

/-- Globals: read head pinned by a range request at byte 50331648. -/
def sampleG : EngineGlobals :=
  { currentPlaybackTime := 0, currentPlaybackBytes := 50331648,
    estimatedBitrate := 0, isTranscoding := false }

/-- A ≈16 GB file, 4 MiB pieces, one stale piece at index 0. -/
def sampleT : TorrentState :=
  { pieceLength := 4194304, totalPieces := 3815, fileOffset := 0,
    fileLength := 16000000000, cfg := getBufferConfig (16000000000 : ℚ),
    chunks := [some 4194304], mem := [],
    bitfield := fun i => decide (i = 0),
    pausedFlag := false, hardPausedFlag := false, enginePaused := false,
    heapMB := 100 }

/-- Same torrent as `sampleT` but with twenty resident 4 MiB pieces
(83886080 bytes, above the 75 MiB hard limit). -/
def sampleTFull : TorrentState :=
  { sampleT with chunks := List.replicate 20 (some 4194304) }

/-- Globals with all read-head inputs at zero. -/
def zeroG : EngineGlobals :=
  { currentPlaybackTime := 0, currentPlaybackBytes := 0,
    estimatedBitrate := 0, isTranscoding := false }

/-- The exact file size (52848230400 bytes) at which
`getBufferConfig` yields `aheadBytes = 0` and `aheadSeconds = 0`. -/
def boundaryT : TorrentState :=
  { pieceLength := 4194304, totalPieces := 12601, fileOffset := 0,
    fileLength := 52848230400, cfg := getBufferConfig (52848230400 : ℚ),
    chunks := [], mem := [], bitfield := fun _ => false,
    pausedFlag := false, hardPausedFlag := false, enginePaused := false,
    heapMB := 100 }

/-- A 60 GB file (beyond the 52848230400-byte threshold). -/
def hugeT : TorrentState :=
  { boundaryT with
    fileLength := 60000000000
    totalPieces := 14306
    cfg := getBufferConfig (60000000000 : ℚ) }

/-- A two-piece 8 MiB file whose length is an exact multiple of the
piece length. -/
def tinyT : TorrentState :=
  { pieceLength := 4194304, totalPieces := 2, fileOffset := 0,
    fileLength := 8388608, cfg := getBufferConfig (8388608 : ℚ),
    chunks := [], mem := [], bitfield := fun _ => false,
    pausedFlag := false, hardPausedFlag := false, enginePaused := false,
    heapMB := 100 }

/-- The two-piece file with every piece already downloaded. -/
def fullBitT : TorrentState :=
  { pieceLength := 4194304, totalPieces := 2, fileOffset := 0,
    fileLength := 8388608, cfg := getBufferConfig (8388608 : ℚ),
    chunks := [some 4194304, some 4194304], mem := [],
    bitfield := fun _ => true,
    pausedFlag := false, hardPausedFlag := false, enginePaused := false,
    heapMB := 100 }

/-- Globals whose playback time is far beyond the end of `tinyT`. -/
def lateG : EngineGlobals :=
  { currentPlaybackTime := 10000, currentPlaybackBytes := 0,
    estimatedBitrate := 0, isTranscoding := false }

/-- A control state with a live session holding one resident piece. -/
def sampleC : ControlState :=
  { session := some sampleT, hasFfmpeg := true, slidingActive := true,
    statusActive := true, currentPlaybackTime := 12,
    currentPlaybackBytes := 50331648, estimatedBitrate := 7,
    lastBytePosition := 50331648, lastByteTime := 99, useTranscoding := true }

/-! ## Helper lemmas -/

/-- `List.getD` through a `maskList` null-out loop. -/
theorem maskList_getD (P : ℕ → Prop) [DecidablePred P] (l : List (Option ℕ)) :
    ∀ start i, (maskList P start l).getD i none
      = if P (start + i) then none else l.getD i none := by
  induction l with
  | nil =>
    intro start i
    simp only [maskList, List.getD]
    split <;> rfl
  | cons c rest ih =>
    intro start i
    cases i with
    | zero =>
      simp [maskList, List.getD]
    | succ j =>
      simp only [maskList, List.getD_cons_succ]
      rw [ih (start + 1) j]
      have h : start + 1 + j = start + (j + 1) := by omega
      rw [h]

/-- `chunkAt` through `cleanChunks`: everything outside the window is
gone, everything inside is untouched. -/
theorem chunkAt_cleanChunks (ws we : ℤ) (l : List (Option ℕ)) (i : ℤ) :
    chunkAt (cleanChunks ws we l) i
      = if i < ws ∨ we < i then none else chunkAt l i := by
  unfold chunkAt cleanChunks
  by_cases h : 0 ≤ i
  · rw [if_pos h, if_pos h, maskList_getD]
    have hcast : ((0 + i.toNat : ℕ) : ℤ) = i := by
      rw [Nat.zero_add]
      exact Int.toNat_of_nonneg h
    by_cases hc : i < ws ∨ we < i
    · rw [if_pos (by rw [hcast]; exact hc), if_pos hc]
    · rw [if_neg (by rw [hcast]; exact hc), if_neg hc]
  · rw [if_neg h, if_neg h]
    split <;> rfl

/-- Eviction result of the memory-control section: after any branch,
every chunk outside `[windowStart, windowEnd]` is absent. -/
theorem memoryControl_chunks_outside (pieceLength : ℚ) (windowStart windowEnd : ℤ)
    (heapMB : ℚ) (chunks mem : List (Option ℕ)) (hardFlag enginePaused : Bool)
    (i : ℤ) (hout : i < windowStart ∨ windowEnd < i) :
    chunkAt (memoryControl pieceLength windowStart windowEnd heapMB chunks mem
      hardFlag enginePaused).chunks i = none := by
  have hclean : ∀ l : List (Option ℕ),
      chunkAt (cleanChunks windowStart windowEnd l) i = none := by
    intro l
    rw [chunkAt_cleanChunks, if_pos hout]
  have hzero : chunks.length = 0 → chunkAt chunks i = none := by
    intro h
    rw [List.length_eq_zero] at h
    subst h
    unfold chunkAt
    split <;> simp [List.getD]
  unfold memoryControl
  dsimp only
  split_ifs <;>
    first
      | exact hclean _
      | exact hzero (by assumption)

/-- Immediate-store result of the memory-control section: when the chunk
array is non-empty, entries below `windowStart` (and entries above
`windowEnd` up to the chunk array's length) are nulled. -/
theorem memoryControl_mem_outside (pieceLength : ℚ) (windowStart windowEnd : ℤ)
    (heapMB : ℚ) (chunks mem : List (Option ℕ)) (hardFlag enginePaused : Bool)
    (h0 : 0 < chunks.length) (i : ℕ)
    (hout : (i : ℤ) < windowStart ∨ (windowEnd < (i : ℤ) ∧ i < chunks.length)) :
    (memoryControl pieceLength windowStart windowEnd heapMB chunks mem
      hardFlag enginePaused).mem.getD i none = none := by
  have hlen : ¬ chunks.length = 0 := by omega
  have hreg : (cleanMemRegular windowStart windowEnd chunks.length mem).getD i none
      = none := by
    unfold cleanMemRegular
    rw [maskList_getD]
    rw [if_pos (by simpa using hout)]
  have heme : (cleanMemEmergency windowStart windowEnd chunks.length
      (cleanMemRegular windowStart windowEnd chunks.length mem)).getD i none = none := by
    unfold cleanMemEmergency
    rw [maskList_getD]
    split
    · rfl
    · exact hreg
  unfold memoryControl
  dsimp only
  split_ifs <;>
    first
      | exact heme
      | exact hreg

/-- Behaviour of the soft pause/resume section, with the
`aheadSeconds || 60` fallback made explicit. -/
theorem softControl_spec (a b : ℚ) (p h tr e : Bool) :
    (softControl a b p h tr e).targetBufferSeconds = (if a = 0 then 60 else a) ∧
    ((softControl a b p h tr e).softPauseCalled = true ↔
      ((if a = 0 then (60 : ℚ) else a) ≤ b ∧ p = false ∧ tr = false ∧ h = false)) ∧
    ((softControl a b p h tr e).softResumeCalled = true ↔
      (p = true ∧ h = false ∧
        (b < (if a = 0 then (60 : ℚ) else a) * (1 / 2) ∨ tr = true))) ∧
    ((softControl a b p h tr e).softPauseCalled = true →
      (softControl a b p h tr e).pausedFlag = true) ∧
    ((softControl a b p h tr e).softResumeCalled = true →
      (softControl a b p h tr e).pausedFlag = false) ∧
    ((softControl a b p h tr e).bufferFull = true ↔ (if a = 0 then (60 : ℚ) else a) ≤ b) := by
  unfold softControl
  dsimp only
  split_ifs with h1 h2 <;> simp_all

/-- Floor of a rational divided by a positive natural is integer
division of its floor. -/
theorem floorQDivNat (y : ℚ) (n : ℕ) (hn : 0 < n) :
    ⌊y / (n : ℚ)⌋ = ⌊y⌋ / (n : ℤ) := by
  refine eq_of_forall_le_iff fun z => ?_
  rw [Int.le_floor, le_div_iff₀ (by exact_mod_cast hn : (0 : ℚ) < (n : ℚ)),
    Int.le_ediv_iff_mul_le (by exact_mod_cast hn : (0 : ℤ) < (n : ℤ)), Int.le_floor]
  push_cast
  exact Iff.rfl

/-- Taking the floor of the byte offset before dividing by the piece
length does not change the resulting piece index. -/
theorem floorAddFloorDiv (a n : ℕ) (x : ℚ) (hn : 0 < n) :
    ⌊((a : ℚ) + ((⌊x⌋ : ℤ) : ℚ)) / (n : ℚ)⌋ = ⌊((a : ℚ) + x) / (n : ℚ)⌋ := by
  rw [floorQDivNat _ _ hn, floorQDivNat _ _ hn]
  congr 1
  have h1 : ((a : ℚ)) = (((a : ℤ) : ℚ)) := by push_cast; ring
  rw [h1, Int.floor_int_add, Int.floor_int_add, Int.floor_intCast]

/-- The read head computed by the tick is clamped to `[0, fileLength]`. -/
theorem readHeadByte_bounds (g : EngineGlobals) (fileOffset fileLength : ℕ) (bps : ℚ) :
    0 ≤ readHeadByte g fileOffset fileLength bps ∧
    readHeadByte g fileOffset fileLength bps ≤ (fileLength : ℚ) := by
  unfold readHeadByte
  constructor
  · exact le_max_left _ _
  · apply max_le
    · exact_mod_cast Nat.cast_nonneg fileLength
    · exact min_le_right _ _

/-! ### Claim C1 -/

/-- C1 (counterexample): the claim says the raw server answers 416 exactly
when the requested range violates `0 ≤ s ≤ e < N`; but for `bytes=0-100`
on a 100-byte file (`e = N`, invalid per that rule) the code clamps the
end to `N − 1` first and answers 206. -/
theorem c1_counterexample :
    ¬ (((handleRawRequest 100 (some (0, some 100)) false).is416 = true) ↔
        ¬ (0 ≤ (0 : ℤ) ∧ (0 : ℤ) ≤ (100 : ℤ) ∧ (100 : ℤ) < (100 : ℤ))) := by
  decide

/-- C1 (amended): the raw server answers 416 for `bytes=s-e` iff
`s < 0 ∨ s ≥ N ∨ min(e, N−1) < s` — the requested end is clamped to
`N − 1` before validation, so `e ≥ N` alone does not fail; and an
open-ended range whose start exceeds the file (`bytes=999999999-` on a
100 MB file) yields 416 with `Content-Range: bytes */104857600`. -/
theorem c1_amended :
    (∀ (fileSize : ℕ) (s e : ℤ), 0 < fileSize →
      ((handleRawRequest fileSize (some (s, some e)) false).is416 = true ↔
        (s < 0 ∨ (fileSize : ℤ) ≤ s ∨ min e ((fileSize : ℤ) - 1) < s))) ∧
    handleRawRequest 104857600 (some (999999999, none)) false
      = RawResponse.r416 104857600 := by
  constructor
  · intro fileSize s e _
    simp only [handleRawRequest]
    split
    · next h =>
      simp only [RawResponse.is416, true_iff]
      tauto
    · next h =>
      simp only [RawResponse.is416, Bool.false_eq_true, false_iff]
      tauto
  · decide

/-- C1 witness: the amended rule applied at `N = 100`, `s = 105`,
`e = 200` gives a 416. -/
theorem c1_amended_witness :
    (handleRawRequest 100 (some (105, some 200)) false).is416 = true :=
  (c1_amended.1 100 105 200 (by decide)).mpr (by decide)

/-! ### Claim C2 -/

/-- C2: every 206 answer of the raw server satisfies
`Content-Range: bytes s-e/N` with `0 ≤ s ≤ e < N`,
`Content-Length = e − s + 1`, and (for GET) the body is the engine read
stream for exactly `[s, e]`. -/
theorem c2_range206Correct (fileSize : ℕ) (s : ℤ) (endSpec : Option ℤ)
    (isHead : Bool) (hN : 0 < fileSize) :
    range206Correct fileSize isHead
      (handleRawRequest fileSize (some (s, endSpec)) isHead) := by
  cases endSpec with
  | none =>
    simp only [handleRawRequest]
    split
    · exact trivial
    · next h =>
      push_neg at h
      obtain ⟨h1, h2, h3⟩ := h
      have hm := min_le_right ((fileSize : ℤ) - 1) ((fileSize : ℤ) - 1)
      refine ⟨h2, h3, by omega, rfl, rfl, ?_⟩
      intro hh
      simp [hh]
  | some e =>
    simp only [handleRawRequest]
    split
    · exact trivial
    · next h =>
      push_neg at h
      obtain ⟨h1, h2, h3⟩ := h
      have hm := min_le_right e ((fileSize : ℤ) - 1)
      refine ⟨h2, h3, by omega, rfl, rfl, ?_⟩
      intro hh
      simp [hh]

/-- C2 witness: concrete 206 for `bytes=0-41` on a 100-byte file. -/
theorem c2_range206Correct_witness :
    range206Correct 100 false (handleRawRequest 100 (some (0, some 41)) false) :=
  c2_range206Correct 100 0 (some 41) false (by decide)

/-! ### Claim C3 -/

/-- C3: on every tick the window is computed exactly as
`piecesBehind = ⌈min(behindSeconds·bps, 10 % of 70 MiB)/pieceLength⌉`,
`piecesAhead = ⌈min(90 % of 70 MiB, config.aheadBytes)/pieceLength⌉`,
`windowStart = max(filePieceStart, currentPiece − piecesBehind)` and
`windowEnd = min(filePieceEnd, currentPiece + piecesAhead)`, where `bps`
is the estimator's current bytes-per-second value. -/
theorem c3_windowFormula (g : EngineGlobals) (t : TorrentState)
    (hpl : t.pieceLength ≠ 0) (htp : t.totalPieces ≠ 0)
    (hcfg : t.cfg = getBufferConfig (t.fileLength : ℚ)) :
    (slidingWindowTick g t).piecesBehind
        = ⌈min (t.cfg.behindSeconds * tickBytesPerSecond g t)
            ((70 * 1024 * 1024 : ℚ) / 10) / (t.pieceLength : ℚ)⌉ ∧
    (slidingWindowTick g t).piecesAhead
        = ⌈min ((70 * 1024 * 1024 : ℚ) * 9 / 10) t.cfg.aheadBytes / (t.pieceLength : ℚ)⌉ ∧
    (slidingWindowTick g t).windowStart
        = max (slidingWindowTick g t).filePieceStart
            ((slidingWindowTick g t).currentPiece - (slidingWindowTick g t).piecesBehind) ∧
    (slidingWindowTick g t).windowEnd
        = min (slidingWindowTick g t).filePieceEnd
            ((slidingWindowTick g t).currentPiece + (slidingWindowTick g t).piecesAhead) := by
  have hg : ¬ (t.pieceLength = 0 ∨ t.totalPieces = 0) := by tauto
  unfold slidingWindowTick
  rw [if_neg hg]
  unfold computeWindow
  dsimp only
  refine ⟨?_, ?_, rfl, rfl⟩
  · congr 1
    rw [hcfg]
    norm_num [getBufferConfig, MAX_BUFFER_SIZE_MB, BUFFER_BEHIND_SECONDS]
  · congr 1
    norm_num [MAX_BUFFER_SIZE_MB]

/-- C3 witness: the window formula instantiated on the 16 GB sample
state. -/
theorem c3_windowFormula_witness :
    (slidingWindowTick sampleG sampleT).piecesBehind
        = ⌈min (sampleT.cfg.behindSeconds * tickBytesPerSecond sampleG sampleT)
            ((70 * 1024 * 1024 : ℚ) / 10) / (sampleT.pieceLength : ℚ)⌉ ∧
    (slidingWindowTick sampleG sampleT).piecesAhead
        = ⌈min ((70 * 1024 * 1024 : ℚ) * 9 / 10) sampleT.cfg.aheadBytes
            / (sampleT.pieceLength : ℚ)⌉ ∧
    (slidingWindowTick sampleG sampleT).windowStart
        = max (slidingWindowTick sampleG sampleT).filePieceStart
            ((slidingWindowTick sampleG sampleT).currentPiece
              - (slidingWindowTick sampleG sampleT).piecesBehind) ∧
    (slidingWindowTick sampleG sampleT).windowEnd
        = min (slidingWindowTick sampleG sampleT).filePieceEnd
            ((slidingWindowTick sampleG sampleT).currentPiece
              + (slidingWindowTick sampleG sampleT).piecesAhead) :=
  c3_windowFormula sampleG sampleT (by norm_num [sampleT]) (by norm_num [sampleT])
    (by norm_num [sampleT])

/-! ### Claim C4 -/

set_option maxRecDepth 100000 in
/-- C4 (counterexample): piece 0 of the sample state lies in the file's
piece range, is outside the window (`windowStart = 10`), and its buffer
is dropped by the tick — but its have-bit is NOT cleared (the current
engine's eviction loops never touch `torrent.bitfield`), contradicting
the claim. -/
theorem c4_counterexample :
    (slidingWindowTick sampleG sampleT).filePieceStart ≤ 0 ∧
    (0 : ℤ) ≤ (slidingWindowTick sampleG sampleT).filePieceEnd ∧
    (0 : ℤ) < (slidingWindowTick sampleG sampleT).windowStart ∧
    chunkAt (slidingWindowTick sampleG sampleT).torrent.chunks 0 = none ∧
    sampleT.bitfield 0 = true ∧
    ¬ (slidingWindowTick sampleG sampleT).torrent.bitfield 0 = false := by
  with_unfolding_all decide

/-- C4 (amended): on every tick, every piece index outside
`[windowStart, windowEnd]` is dropped from the memory-chunk-store
(unconditionally, not only when memory is tight), and — when the chunk
array is non-empty — immediate-store entries below `windowStart`, and
those above `windowEnd` up to the chunk array's length, are dropped too;
the have-bit, however, is left untouched: the tick never clears the
bitfield. -/
theorem c4_amended (g : EngineGlobals) (t : TorrentState)
    (hpl : t.pieceLength ≠ 0) (htp : t.totalPieces ≠ 0) :
    (∀ i : ℤ, i < (slidingWindowTick g t).windowStart ∨
        (slidingWindowTick g t).windowEnd < i →
      chunkAt (slidingWindowTick g t).torrent.chunks i = none) ∧
    (0 < t.chunks.length → ∀ i : ℕ,
      ((i : ℤ) < (slidingWindowTick g t).windowStart ∨
        ((slidingWindowTick g t).windowEnd < (i : ℤ) ∧ i < t.chunks.length)) →
      (slidingWindowTick g t).torrent.mem.getD i none = none) ∧
    (slidingWindowTick g t).torrent.bitfield = t.bitfield := by
  have hg : ¬ (t.pieceLength = 0 ∨ t.totalPieces = 0) := by tauto
  unfold slidingWindowTick
  rw [if_neg hg]
  dsimp only
  refine ⟨?_, ?_, rfl⟩
  · intro i hout
    exact memoryControl_chunks_outside _ _ _ _ _ _ _ _ i hout
  · intro h0 i hout
    exact memoryControl_mem_outside _ _ _ _ _ _ _ _ h0 i hout

set_option maxRecDepth 100000 in
/-- C4 witness: the amended eviction statement applied to the sample
state at piece 0. -/
theorem c4_amended_witness :
    chunkAt (slidingWindowTick sampleG sampleT).torrent.chunks 0 = none ∧
    (slidingWindowTick sampleG sampleT).torrent.bitfield = sampleT.bitfield :=
  ⟨(c4_amended sampleG sampleT (by norm_num [sampleT]) (by norm_num [sampleT])).1 0
      (Or.inl (by with_unfolding_all decide)),
    (c4_amended sampleG sampleT (by norm_num [sampleT]) (by norm_num [sampleT])).2.2⟩

/-! ### Claim C5 -/

/-- Flag/call behaviour of the hard-limit section: the trigger condition,
the pause it engages, and the resume hysteresis at 80 % of the soft
cap. -/
theorem memoryControl_spec (pl : ℚ) (ws we : ℤ) (heap : ℚ)
    (chunks mem : List (Option ℕ)) (hard engine : Bool) :
    (memoryControl pl ws we heap chunks mem hard engine).storedChunksBytes
        = countBytes pl chunks + countBytes pl mem ∧
    ((memoryControl pl ws we heap chunks mem hard engine).hardResumeCalled = true ↔
      ((hard = true ∨ (HARD_LIMIT_BUFFER_MB * 1024 * 1024
          < (memoryControl pl ws we heap chunks mem hard engine).storedChunksBytes ∨
          (500 : ℚ) < heap)) ∧
        (memoryControl pl ws we heap chunks mem hard engine).actualMemoryBytes
          < MAX_BUFFER_SIZE_MB * 1024 * 1024 * (8 / 10))) ∧
    ((memoryControl pl ws we heap chunks mem hard engine).hardPausedFlag = true ↔
      ((hard = true ∨ (HARD_LIMIT_BUFFER_MB * 1024 * 1024
          < (memoryControl pl ws we heap chunks mem hard engine).storedChunksBytes ∨
          (500 : ℚ) < heap)) ∧
        (memoryControl pl ws we heap chunks mem hard engine).hardResumeCalled = false)) ∧
    ((memoryControl pl ws we heap chunks mem hard engine).hardPauseCalled = true ↔
      ((HARD_LIMIT_BUFFER_MB * 1024 * 1024
          < (memoryControl pl ws we heap chunks mem hard engine).storedChunksBytes ∨
          (500 : ℚ) < heap) ∧ hard = false)) ∧
    ((HARD_LIMIT_BUFFER_MB * 1024 * 1024
        < (memoryControl pl ws we heap chunks mem hard engine).storedChunksBytes ∨
        (500 : ℚ) < heap) → hard = false →
      (memoryControl pl ws we heap chunks mem hard engine).hardResumeCalled = false →
      (memoryControl pl ws we heap chunks mem hard engine).enginePaused = true) := by
  unfold memoryControl
  dsimp only
  cases hard <;> split_ifs with h1 h2 h3 h4 <;> dsimp only <;> simp_all

/-- While hard-paused the soft section leaves the swarm pause state
alone (both its branches require the hard flag to be clear). -/
theorem softControl_enginePaused_of_hard (a b : ℚ) (p tr e : Bool) :
    (softControl a b p true tr e).enginePaused = e := by
  unfold softControl
  dsimp only
  rw [if_neg (by simp), if_neg (by simp)]

/-- C5: on any tick whose measured resident piece bytes exceed 75 MiB or
whose process heap exceeds 500 MiB, the hard-pause flag is engaged (it is
still set at tick end unless the same tick already resumed), `pause` is
called when the flag was not already set, the swarm is left paused while
hard-paused, and every chunk outside `[windowStart, windowEnd]` is
evicted; the flag is cleared and `resume` called exactly when the
post-eviction resident bytes fall below 80 % of the 70 MiB soft cap. -/
theorem c5_hardCap (g : EngineGlobals) (t : TorrentState)
    (hpl : t.pieceLength ≠ 0) (htp : t.totalPieces ≠ 0) :
    (((75 * 1024 * 1024 : ℚ) < (slidingWindowTick g t).storedChunksBytes ∨
        (500 : ℚ) < t.heapMB) →
      (((slidingWindowTick g t).torrent.hardPausedFlag = true ∨
          (slidingWindowTick g t).hardResumeCalled = true) ∧
        (t.hardPausedFlag = false → (slidingWindowTick g t).hardPauseCalled = true) ∧
        (t.hardPausedFlag = false → (slidingWindowTick g t).hardResumeCalled = false →
          (slidingWindowTick g t).torrent.enginePaused = true) ∧
        (∀ i : ℤ, i < (slidingWindowTick g t).windowStart ∨
            (slidingWindowTick g t).windowEnd < i →
          chunkAt (slidingWindowTick g t).torrent.chunks i = none))) ∧
    ((slidingWindowTick g t).hardResumeCalled = true ↔
      ((t.hardPausedFlag = true ∨
          ((75 * 1024 * 1024 : ℚ) < (slidingWindowTick g t).storedChunksBytes ∨
            (500 : ℚ) < t.heapMB)) ∧
        (slidingWindowTick g t).actualMemoryBytes < (70 * 1024 * 1024 : ℚ) * (8 / 10))) ∧
    ((slidingWindowTick g t).torrent.hardPausedFlag = true ↔
      ((t.hardPausedFlag = true ∨
          ((75 * 1024 * 1024 : ℚ) < (slidingWindowTick g t).storedChunksBytes ∨
            (500 : ℚ) < t.heapMB)) ∧
        (slidingWindowTick g t).hardResumeCalled = false)) := by
  have hg : ¬ (t.pieceLength = 0 ∨ t.totalPieces = 0) := by tauto
  have hm := memoryControl_spec (t.pieceLength : ℚ)
    (computeWindow g t).windowStart (computeWindow g t).windowEnd t.heapMB
    t.chunks t.mem t.hardPausedFlag t.enginePaused
  have hlim : (HARD_LIMIT_BUFFER_MB * 1024 * 1024 : ℚ) = 75 * 1024 * 1024 := by
    norm_num [HARD_LIMIT_BUFFER_MB]
  have hmax : (MAX_BUFFER_SIZE_MB * 1024 * 1024 * (8 / 10) : ℚ)
      = (70 * 1024 * 1024 : ℚ) * (8 / 10) := by
    norm_num [MAX_BUFFER_SIZE_MB]
  rw [hlim, hmax] at hm
  obtain ⟨hstored, hresume, hflag, hpause, hengine⟩ := hm
  unfold slidingWindowTick
  rw [if_neg hg]
  dsimp only
  have hev : ∀ i : ℤ, i < (computeWindow g t).windowStart ∨
      (computeWindow g t).windowEnd < i →
      chunkAt (memoryControl (t.pieceLength : ℚ) (computeWindow g t).windowStart
        (computeWindow g t).windowEnd t.heapMB t.chunks t.mem t.hardPausedFlag
        t.enginePaused).chunks i = none := by
    intro i hout
    exact memoryControl_chunks_outside _ _ _ _ _ _ _ _ i hout
  refine ⟨?_, ?_, ?_⟩
  · intro htr
    refine ⟨?_, ?_, ?_, hev⟩
    · by_cases hres : (memoryControl (t.pieceLength : ℚ) (computeWindow g t).windowStart
          (computeWindow g t).windowEnd t.heapMB t.chunks t.mem t.hardPausedFlag
          t.enginePaused).hardResumeCalled = true
      · exact Or.inr hres
      · left
        rw [hflag]
        exact ⟨Or.inr htr, by simpa using hres⟩
    · intro hh
      rw [hpause]
      exact ⟨htr, hh⟩
    · intro hh hres
      have he := hengine htr hh hres
      have hmtrue : (memoryControl (t.pieceLength : ℚ) (computeWindow g t).windowStart
          (computeWindow g t).windowEnd t.heapMB t.chunks t.mem t.hardPausedFlag
          t.enginePaused).hardPausedFlag = true :=
        hflag.mpr ⟨Or.inr htr, hres⟩
      rw [hmtrue, softControl_enginePaused_of_hard]
      exact he
  · rw [hresume, hstored]
  · rw [hflag, hstored]

set_option maxRecDepth 100000 in
/-- C5 witness: on the over-full sample state (20 resident pieces,
83886080 bytes > 75 MiB) the tick calls the hard pause, evicts piece 0,
and — the emergency eviction having brought residency to 41943040 bytes,
below 80 % of 70 MiB — resumes within the same tick. -/
theorem c5_hardCap_witness :
    chunkAt (slidingWindowTick sampleG sampleTFull).torrent.chunks 0 = none ∧
    (slidingWindowTick sampleG sampleTFull).hardPauseCalled = true ∧
    (slidingWindowTick sampleG sampleTFull).hardResumeCalled = true := by
  have h := c5_hardCap sampleG sampleTFull
    (by norm_num [sampleTFull, sampleT]) (by norm_num [sampleTFull, sampleT])
  have htr : (75 * 1024 * 1024 : ℚ) < (slidingWindowTick sampleG sampleTFull).storedChunksBytes ∨
      (500 : ℚ) < sampleTFull.heapMB :=
    Or.inl (by with_unfolding_all decide)
  refine ⟨(h.1 htr).2.2.2 0 (Or.inl (by with_unfolding_all decide)),
    (h.1 htr).2.1 (by with_unfolding_all decide), ?_⟩
  exact h.2.1.mpr ⟨Or.inr htr, by with_unfolding_all decide⟩

/-! ### Claim C6 -/

set_option maxRecDepth 100000 in
/-- C6 (counterexample): at file size 52848230400 the derived
`config.aheadSeconds` is exactly 0, so `Tfull = config.aheadSeconds = 0`;
with no pause flag set, no remux running and buffered-ahead 0 ≥ Tfull,
the claim requires the tick to soft-pause — but the code's
`aheadSeconds || 60` fallback makes the target 60 s and no pause
happens. -/
theorem c6_counterexample :
    (getBufferConfig (52848230400 : ℚ)).aheadSeconds = 0 ∧
    boundaryT.cfg = getBufferConfig (52848230400 : ℚ) ∧
    boundaryT.pausedFlag = false ∧
    boundaryT.hardPausedFlag = false ∧
    zeroG.isTranscoding = false ∧
    (slidingWindowTick zeroG boundaryT).torrent.hardPausedFlag = false ∧
    (getBufferConfig (52848230400 : ℚ)).aheadSeconds
      ≤ (slidingWindowTick zeroG boundaryT).bufferedAheadSeconds ∧
    (slidingWindowTick zeroG boundaryT).softPauseCalled = false ∧
    (slidingWindowTick zeroG boundaryT).torrent.pausedFlag = false := by
  refine ⟨by with_unfolding_all decide, rfl, rfl, rfl, rfl,
    by with_unfolding_all decide, by with_unfolding_all decide,
    by with_unfolding_all decide, by with_unfolding_all decide⟩

/-- C6 (amended): the soft pause/resume rule holds with
`Tfull = config.aheadSeconds` when that value is non-zero and `Tfull =
60` otherwise (the code's `aheadSeconds || 60` fallback): with neither
flag set, pause is called exactly when the buffered-ahead seconds reach
`Tfull` and the remuxer is not consuming; when soft-paused and not
hard-paused, resume is called exactly when buffered-ahead drops below
`Tfull/2` or the remuxer is consuming; in particular the scheduler never
soft-pauses while a remux is active. -/
theorem c6_amended (g : EngineGlobals) (t : TorrentState)
    (hpl : t.pieceLength ≠ 0) (htp : t.totalPieces ≠ 0) :
    ((slidingWindowTick g t).softPauseCalled = true ↔
      ((if t.cfg.aheadSeconds = 0 then (60 : ℚ) else t.cfg.aheadSeconds)
          ≤ (slidingWindowTick g t).bufferedAheadSeconds ∧
        t.pausedFlag = false ∧ g.isTranscoding = false ∧
        (slidingWindowTick g t).torrent.hardPausedFlag = false)) ∧
    ((slidingWindowTick g t).softResumeCalled = true ↔
      (t.pausedFlag = true ∧
        (slidingWindowTick g t).torrent.hardPausedFlag = false ∧
        ((slidingWindowTick g t).bufferedAheadSeconds
            < (if t.cfg.aheadSeconds = 0 then (60 : ℚ) else t.cfg.aheadSeconds) * (1 / 2) ∨
          g.isTranscoding = true))) ∧
    ((slidingWindowTick g t).softPauseCalled = true →
      (slidingWindowTick g t).torrent.pausedFlag = true) ∧
    ((slidingWindowTick g t).softResumeCalled = true →
      (slidingWindowTick g t).torrent.pausedFlag = false) ∧
    (g.isTranscoding = true → (slidingWindowTick g t).softPauseCalled = false) := by
  have hg : ¬ (t.pieceLength = 0 ∨ t.totalPieces = 0) := by tauto
  unfold slidingWindowTick
  rw [if_neg hg]
  dsimp only
  have hs := softControl_spec t.cfg.aheadSeconds
    (((max 0 ((scanForward t.bitfield (computeWindow g t).windowEnd
        (t.totalPieces : ℤ) (t.totalPieces + 1) (computeWindow g t).currentPiece
        (computeWindow g t).currentPiece) - (computeWindow g t).currentPiece) : ℤ) : ℚ)
      * (t.pieceLength : ℚ) / (computeWindow g t).bytesPerSecond)
    t.pausedFlag
    (memoryControl (t.pieceLength : ℚ) (computeWindow g t).windowStart
      (computeWindow g t).windowEnd t.heapMB t.chunks t.mem t.hardPausedFlag
      t.enginePaused).hardPausedFlag
    g.isTranscoding
    (memoryControl (t.pieceLength : ℚ) (computeWindow g t).windowStart
      (computeWindow g t).windowEnd t.heapMB t.chunks t.mem t.hardPausedFlag
      t.enginePaused).enginePaused
  obtain ⟨htgt, hpause, hresume, hp1, hp2, hfull⟩ := hs
  refine ⟨?_, ?_, hp1, hp2, ?_⟩
  · rw [hpause]
  · rw [hresume]
  · intro htr
    by_contra hc
    rw [Bool.not_eq_false] at hc
    have hx := hpause.mp hc
    simp [htr] at hx

set_option maxRecDepth 100000 in
/-- C6 witness: on the fully-buffered two-piece file the amended rule
fires the soft pause (target ≈ 120 s is reached by the buffered-ahead
seconds), and the paused flag is set. -/
theorem c6_amended_witness :
    (slidingWindowTick zeroG fullBitT).softPauseCalled = true ∧
    (slidingWindowTick zeroG fullBitT).torrent.pausedFlag = true := by
  have h := c6_amended zeroG fullBitT (by norm_num [fullBitT]) (by norm_num [fullBitT])
  have hp : (slidingWindowTick zeroG fullBitT).softPauseCalled = true :=
    h.1.mpr ⟨by with_unfolding_all decide, rfl, rfl, by with_unfolding_all decide⟩
  exact ⟨hp, h.2.2.1 hp⟩

/-! ### Claim C7 -/

set_option maxRecDepth 100000 in
/-- C7 (counterexample): seeking to t = 600 s on the 52.8 GB file
(bps = 7340032, pieceLength = 4 MiB) marks critical only
`min(20, ⌈15·bps/pieceLength⌉) = 20` pieces — `[1050, 1070]`, not the
claimed `[1050, 1050 + ⌈15·bps/pieceLength⌉] = [1050, 1077]` — and, both
pause flags being clear, resume is not called although the claim says
every such update calls resume. -/
theorem c7_counterexample :
    (5 : ℚ) < |(600 : ℚ) - 0| ∧
    (updatePlaybackHandler 600 0 boundaryT).criticalCall = some (1050, 1070) ∧
    min ((1050 : ℤ) + ⌈15 * boundaryT.cfg.bytesPerSecond / (boundaryT.pieceLength : ℚ)⌉)
        ((boundaryT.totalPieces : ℤ) - 1) = 1077 ∧
    (1070 : ℤ) ≠ 1077 ∧
    boundaryT.pausedFlag = false ∧ boundaryT.hardPausedFlag = false ∧
    (updatePlaybackHandler 600 0 boundaryT).resumeCalled = false := by
  refine ⟨by norm_num, by with_unfolding_all decide, by with_unfolding_all decide,
    by decide, rfl, rfl, by with_unfolding_all decide⟩

/-- C7 (amended): a playback update that jumps more than 5 s clears both
pause flags (calling resume exactly when one of them was set), stores the
new time, and marks critical the range from
`⌊(fileOffset + t·bps)/pieceLength⌋` to that piece plus
`min(20, ⌈15·bps/pieceLength⌉)`, clamped to `totalPieces − 1`. -/
theorem c7_amended (time prevTime : ℚ) (t : TorrentState)
    (hseek : 5 < |time - prevTime|) (hpl : t.pieceLength ≠ 0)
    (htime : 0 ≤ time) (hbps : 0 ≤ t.cfg.bytesPerSecond) :
    (updatePlaybackHandler time prevTime t).pausedFlag = false ∧
    (updatePlaybackHandler time prevTime t).hardPausedFlag = false ∧
    ((updatePlaybackHandler time prevTime t).resumeCalled = true ↔
      (t.hardPausedFlag = true ∨ t.pausedFlag = true)) ∧
    (updatePlaybackHandler time prevTime t).playbackTime = time ∧
    (updatePlaybackHandler time prevTime t).criticalCall
      = some (⌊((t.fileOffset : ℚ) + time * t.cfg.bytesPerSecond) / (t.pieceLength : ℚ)⌋,
          min (⌊((t.fileOffset : ℚ) + time * t.cfg.bytesPerSecond) / (t.pieceLength : ℚ)⌋
              + min 20 ⌈15 * t.cfg.bytesPerSecond / (t.pieceLength : ℚ)⌉)
            ((t.totalPieces : ℤ) - 1)) := by
  unfold updatePlaybackHandler
  rw [if_pos hseek]
  dsimp only
  have hmul : (0 : ℚ) ≤ time * t.cfg.bytesPerSecond := mul_nonneg htime hbps
  have hfloor : ⌊((t.fileOffset : ℚ) + ((⌊time * t.cfg.bytesPerSecond⌋ : ℤ) : ℚ))
        / (t.pieceLength : ℚ)⌋
      = ⌊((t.fileOffset : ℚ) + time * t.cfg.bytesPerSecond) / (t.pieceLength : ℚ)⌋ :=
    floorAddFloorDiv t.fileOffset t.pieceLength (time * t.cfg.bytesPerSecond) (by omega)
  have hnn : (0 : ℤ) ≤ ⌊((t.fileOffset : ℚ) + ((⌊time * t.cfg.bytesPerSecond⌋ : ℤ) : ℚ))
      / (t.pieceLength : ℚ)⌋ := by
    apply Int.le_floor.mpr
    push_cast
    apply div_nonneg
    · apply add_nonneg (Nat.cast_nonneg _)
      exact_mod_cast Int.le_floor.mpr (by exact_mod_cast hmul)
    · exact Nat.cast_nonneg _
  refine ⟨rfl, rfl, ?_, rfl, ?_⟩
  · simp [Bool.or_eq_true]
  · rw [if_pos hnn, hfloor]

set_option maxRecDepth 100000 in
/-- C7 witness: the amended seek behaviour applied at t = 600 s on the
52.8 GB file. -/
theorem c7_amended_witness :
    (updatePlaybackHandler 600 0 boundaryT).pausedFlag = false ∧
    (updatePlaybackHandler 600 0 boundaryT).criticalCall
      = some (⌊((boundaryT.fileOffset : ℚ) + 600 * boundaryT.cfg.bytesPerSecond)
            / (boundaryT.pieceLength : ℚ)⌋,
          min (⌊((boundaryT.fileOffset : ℚ) + 600 * boundaryT.cfg.bytesPerSecond)
                / (boundaryT.pieceLength : ℚ)⌋
              + min 20 ⌈15 * boundaryT.cfg.bytesPerSecond / (boundaryT.pieceLength : ℚ)⌉)
            ((boundaryT.totalPieces : ℤ) - 1)) :=
  ⟨(c7_amended 600 0 boundaryT (by norm_num) (by norm_num [boundaryT]) (by norm_num)
      (by with_unfolding_all decide)).1,
    (c7_amended 600 0 boundaryT (by norm_num) (by norm_num [boundaryT]) (by norm_num)
      (by with_unfolding_all decide)).2.2.2.2⟩

/-! ### Claim C8 -/

/-- Range of the tick's `currentPiece`: it never falls below
`filePieceStart`; it can exceed `filePieceEnd` only by exactly one, and
only when the clamped read head equals the file length and the piece
length divides `fileOffset + fileLength`. -/
theorem computeWindow_currentPiece_range (g : EngineGlobals) (t : TorrentState)
    (hpl : t.pieceLength ≠ 0) :
    (computeWindow g t).filePieceStart ≤ (computeWindow g t).currentPiece ∧
    (computeWindow g t).currentPiece ≤ (computeWindow g t).filePieceEnd + 1 ∧
    ((computeWindow g t).filePieceEnd < (computeWindow g t).currentPiece →
      ((computeWindow g t).currentByte = (t.fileLength : ℚ) ∧
        ((t.pieceLength : ℤ)) ∣ ((t.fileOffset : ℤ) + (t.fileLength : ℤ)))) := by
  have hplq : (0 : ℚ) < (t.pieceLength : ℚ) := by
    exact_mod_cast Nat.pos_of_ne_zero hpl
  obtain ⟨hcb0, hcb1⟩ := readHeadByte_bounds g t.fileOffset t.fileLength
    (tickBytesPerSecond g t)
  unfold computeWindow
  dsimp only
  refine ⟨?_, ?_, ?_⟩
  · exact Int.floor_mono ((div_le_div_right hplq).mpr (by linarith))
  · have h1 : ⌊((t.fileOffset : ℚ) + readHeadByte g t.fileOffset t.fileLength
          (tickBytesPerSecond g t)) / (t.pieceLength : ℚ)⌋
        ≤ ⌊((t.fileOffset : ℚ) + (t.fileLength : ℚ)) / (t.pieceLength : ℚ)⌋ :=
      Int.floor_mono ((div_le_div_right hplq).mpr (by linarith))
    have h2 := Int.floor_le_ceil
      (((t.fileOffset : ℚ) + (t.fileLength : ℚ)) / (t.pieceLength : ℚ))
    omega
  · intro hlt
    have hYX : ((t.fileOffset : ℚ) + readHeadByte g t.fileOffset t.fileLength
          (tickBytesPerSecond g t)) / (t.pieceLength : ℚ)
        ≤ ((t.fileOffset : ℚ) + (t.fileLength : ℚ)) / (t.pieceLength : ℚ) :=
      (div_le_div_right hplq).mpr (by linarith)
    have hfl := Int.floor_le (((t.fileOffset : ℚ) + readHeadByte g t.fileOffset
      t.fileLength (tickBytesPerSecond g t)) / (t.pieceLength : ℚ))
    have hce := Int.le_ceil
      (((t.fileOffset : ℚ) + (t.fileLength : ℚ)) / (t.pieceLength : ℚ))
    have hic : ⌈((t.fileOffset : ℚ) + (t.fileLength : ℚ)) / (t.pieceLength : ℚ)⌉
        ≤ ⌊((t.fileOffset : ℚ) + readHeadByte g t.fileOffset t.fileLength
          (tickBytesPerSecond g t)) / (t.pieceLength : ℚ)⌋ := by omega
    have hicq : ((⌈((t.fileOffset : ℚ) + (t.fileLength : ℚ)) / (t.pieceLength : ℚ)⌉ : ℤ) : ℚ)
        ≤ ((⌊((t.fileOffset : ℚ) + readHeadByte g t.fileOffset t.fileLength
          (tickBytesPerSecond g t)) / (t.pieceLength : ℚ)⌋ : ℤ) : ℚ) := by
      exact_mod_cast hic
    have hXeqY : ((t.fileOffset : ℚ) + readHeadByte g t.fileOffset t.fileLength
          (tickBytesPerSecond g t)) / (t.pieceLength : ℚ)
        = ((t.fileOffset : ℚ) + (t.fileLength : ℚ)) / (t.pieceLength : ℚ) :=
      le_antisymm hYX (by linarith)
    have hcb : readHeadByte g t.fileOffset t.fileLength (tickBytesPerSecond g t)
        = (t.fileLength : ℚ) := by
      have h := (div_left_inj' (ne_of_gt hplq)).mp hXeqY
      linarith [h]
    refine ⟨hcb, ?_⟩
    have hYfl : ((t.fileOffset : ℚ) + (t.fileLength : ℚ)) / (t.pieceLength : ℚ)
        = ((⌊((t.fileOffset : ℚ) + readHeadByte g t.fileOffset t.fileLength
          (tickBytesPerSecond g t)) / (t.pieceLength : ℚ)⌋ : ℤ) : ℚ) := by
      rw [← hXeqY] at hicq hce ⊢
      linarith
    have hmul : ((t.fileOffset : ℚ) + (t.fileLength : ℚ))
        = ((⌊((t.fileOffset : ℚ) + readHeadByte g t.fileOffset t.fileLength
          (tickBytesPerSecond g t)) / (t.pieceLength : ℚ)⌋ : ℤ) : ℚ) * (t.pieceLength : ℚ) := by
      rw [← hYfl]
      field_simp
    have hint : ((t.fileOffset : ℤ) + (t.fileLength : ℤ))
        = ⌊((t.fileOffset : ℚ) + readHeadByte g t.fileOffset t.fileLength
          (tickBytesPerSecond g t)) / (t.pieceLength : ℚ)⌋ * (t.pieceLength : ℤ) := by
      exact_mod_cast hmul
    exact Dvd.intro _ (by linarith [hint])

set_option maxRecDepth 100000 in
/-- C8 (counterexample): on the two-piece 8 MiB file, a playback time far
past the end clamps the read head to exactly `file.length`; since the
file length is a multiple of the piece length, `currentPiece = 2` while
`filePieceEnd = 1` — the claimed invariant
`currentPiece ≤ filePieceEnd` fails at the exact end of the file. -/
theorem c8_counterexample :
    (slidingWindowTick lateG tinyT).filePieceEnd = 1 ∧
    (slidingWindowTick lateG tinyT).currentPiece = 2 ∧
    ¬ ((slidingWindowTick lateG tinyT).currentPiece
        ≤ (slidingWindowTick lateG tinyT).filePieceEnd) := by
  with_unfolding_all decide

/-- C8 (amended): at the end of every tick the derived `currentPiece`
satisfies `filePieceStart ≤ currentPiece ≤ filePieceEnd + 1`; it exceeds
`filePieceEnd` (by exactly one) only in the corner case where the read
head was clamped to exactly `file.length` and the piece length divides
`fileOffset + fileLength`. -/
theorem c8_amended (g : EngineGlobals) (t : TorrentState)
    (hpl : t.pieceLength ≠ 0) (htp : t.totalPieces ≠ 0) :
    (slidingWindowTick g t).filePieceStart ≤ (slidingWindowTick g t).currentPiece ∧
    (slidingWindowTick g t).currentPiece ≤ (slidingWindowTick g t).filePieceEnd + 1 ∧
    ((slidingWindowTick g t).filePieceEnd < (slidingWindowTick g t).currentPiece →
      ((slidingWindowTick g t).currentByte = (t.fileLength : ℚ) ∧
        ((t.pieceLength : ℤ)) ∣ ((t.fileOffset : ℤ) + (t.fileLength : ℤ)))) := by
  have hg : ¬ (t.pieceLength = 0 ∨ t.totalPieces = 0) := by tauto
  unfold slidingWindowTick
  rw [if_neg hg]
  dsimp only
  exact computeWindow_currentPiece_range g t hpl

set_option maxRecDepth 100000 in
/-- C8 witness: the amended bounds evaluated on the two-piece file with
the read head past the end. -/
theorem c8_amended_witness :
    (slidingWindowTick lateG tinyT).filePieceStart
        ≤ (slidingWindowTick lateG tinyT).currentPiece ∧
    (slidingWindowTick lateG tinyT).currentPiece
        ≤ (slidingWindowTick lateG tinyT).filePieceEnd + 1 :=
  ⟨(c8_amended lateG tinyT (by norm_num [tinyT]) (by norm_num [tinyT])).1,
    (c8_amended lateG tinyT (by norm_num [tinyT]) (by norm_num [tinyT])).2.1⟩

/-! ### Claim C9 -/

/-- C9: `torrent:stop` called twice resolves both times; the first call
kills the remux child, stops both intervals, removes the session and
resets the module state (when a session existed); the second call finds
no session and still resolves; afterwards no piece bytes are resident. -/
theorem c9_stopIdempotent (c : ControlState) :
    (torrentStop c).2 = true ∧
    (torrentStop (torrentStop c).1).2 = true ∧
    (torrentStop c).1.hasFfmpeg = false ∧
    (torrentStop c).1.slidingActive = false ∧
    (torrentStop c).1.statusActive = false ∧
    (torrentStop c).1.session = none ∧
    (c.session.isSome = true →
      (torrentStop c).1
        = resetState { c with hasFfmpeg := false, slidingActive := false, statusActive := false }) ∧
    (torrentStop (torrentStop c).1).1.session = none ∧
    residentBytes (torrentStop (torrentStop c).1).1 = 0 := by
  cases hs : c.session <;>
    simp [torrentStop, resetState, residentBytes, hs]

/-- C9 witness: both stops on the live sample session. -/
theorem c9_stopIdempotent_witness :
    (torrentStop sampleC).2 = true ∧
    (torrentStop (torrentStop sampleC).1).2 = true ∧
    residentBytes (torrentStop (torrentStop sampleC).1).1 = 0 :=
  ⟨(c9_stopIdempotent sampleC).1, (c9_stopIdempotent sampleC).2.1,
    (c9_stopIdempotent sampleC).2.2.2.2.2.2.2.2⟩

/-! ### Claim C10 -/

/-- C10: for every file size beyond 52848230400 bytes (10 s at the
estimated bitrate exceeds the 70 MiB budget; the estimated duration is
capped at 7200 s there), `getBufferConfig` returns a negative
`aheadBytes` and a negative `aheadSeconds`, and a tick running under that
config uses the negative `aheadSeconds` as its soft-pause target, so the
buffer-full condition holds on every tick. -/
theorem c10_negativeAhead (fileSize : ℚ) (hfs : 52848230400 < fileSize)
    (g : EngineGlobals) (t : TorrentState)
    (hpl : t.pieceLength ≠ 0) (htp : t.totalPieces ≠ 0)
    (hcfg : t.cfg = getBufferConfig fileSize) :
    (getBufferConfig fileSize).aheadBytes < 0 ∧
    (getBufferConfig fileSize).aheadSeconds < 0 ∧
    (slidingWindowTick g t).targetBufferSeconds = (getBufferConfig fileSize).aheadSeconds ∧
    (slidingWindowTick g t).bufferFull = true := by
  have hdur : (if fileSize > 10000000000 then (7200 : ℚ)
      else if fileSize > 5000000000 then 5400
      else if fileSize > 2000000000 then 3600
      else if fileSize > 500000000 then 2400 else 1200) = 7200 := by
    rw [if_pos (by linarith)]
  have htier : detectQualityTier fileSize = QualityTier.q4K := by
    unfold detectQualityTier
    rw [if_pos (by rw [gt_iff_lt, lt_div_iff (by norm_num)]; linarith)]
  have hbpspos : (0 : ℚ) < fileSize / 7200 := by positivity
  have hbytes : (getBufferConfig fileSize).aheadBytes
      = min (45 * (fileSize / 7200))
          (MAX_BUFFER_SIZE_MB * 1024 * 1024 - BUFFER_BEHIND_SECONDS * (fileSize / 7200)) := by
    unfold getBufferConfig
    dsimp only
    rw [hdur, htier]
    norm_num [BUFFER_CONFIG]
  have hsec : (getBufferConfig fileSize).aheadSeconds
      = (min (45 * (fileSize / 7200))
          (MAX_BUFFER_SIZE_MB * 1024 * 1024 - BUFFER_BEHIND_SECONDS * (fileSize / 7200)))
        / (fileSize / 7200) := by
    unfold getBufferConfig
    dsimp only
    rw [hdur, htier]
    norm_num [BUFFER_CONFIG]
  have hbps : (getBufferConfig fileSize).bytesPerSecond = fileSize / 7200 := by
    unfold getBufferConfig
    dsimp only
    rw [hdur]
  have hneg : (getBufferConfig fileSize).aheadBytes < 0 := by
    rw [hbytes]
    apply lt_of_le_of_lt (min_le_right _ _)
    rw [MAX_BUFFER_SIZE_MB, BUFFER_BEHIND_SECONDS]
    linarith
  have hnegsec : (getBufferConfig fileSize).aheadSeconds < 0 := by
    rw [hsec]
    apply div_neg_of_neg_of_pos _ hbpspos
    rw [← hbytes]
    exact hneg
  have hbpstick : (0 : ℚ) < tickBytesPerSecond g t := by
    unfold tickBytesPerSecond
    split_ifs with h
    · exact h
    · rw [hcfg, hbps]
      exact hbpspos
  have hg : ¬ (t.pieceLength = 0 ∨ t.totalPieces = 0) := by tauto
  refine ⟨hneg, hnegsec, ?_, ?_⟩
  · unfold slidingWindowTick
    rw [if_neg hg]
    dsimp only
    have hs := (softControl_spec t.cfg.aheadSeconds
      (((max 0 ((scanForward t.bitfield (computeWindow g t).windowEnd
          (t.totalPieces : ℤ) (t.totalPieces + 1) (computeWindow g t).currentPiece
          (computeWindow g t).currentPiece) - (computeWindow g t).currentPiece) : ℤ) : ℚ)
        * (t.pieceLength : ℚ) / (computeWindow g t).bytesPerSecond)
      t.pausedFlag
      (memoryControl (t.pieceLength : ℚ) (computeWindow g t).windowStart
        (computeWindow g t).windowEnd t.heapMB t.chunks t.mem t.hardPausedFlag
        t.enginePaused).hardPausedFlag
      g.isTranscoding
      (memoryControl (t.pieceLength : ℚ) (computeWindow g t).windowStart
        (computeWindow g t).windowEnd t.heapMB t.chunks t.mem t.hardPausedFlag
        t.enginePaused).enginePaused).1
    rw [hs, hcfg, if_neg (ne_of_lt hnegsec)]
  · unfold slidingWindowTick
    rw [if_neg hg]
    dsimp only
    have hs := (softControl_spec t.cfg.aheadSeconds
      (((max 0 ((scanForward t.bitfield (computeWindow g t).windowEnd
          (t.totalPieces : ℤ) (t.totalPieces + 1) (computeWindow g t).currentPiece
          (computeWindow g t).currentPiece) - (computeWindow g t).currentPiece) : ℤ) : ℚ)
        * (t.pieceLength : ℚ) / (computeWindow g t).bytesPerSecond)
      t.pausedFlag
      (memoryControl (t.pieceLength : ℚ) (computeWindow g t).windowStart
        (computeWindow g t).windowEnd t.heapMB t.chunks t.mem t.hardPausedFlag
        t.enginePaused).hardPausedFlag
      g.isTranscoding
      (memoryControl (t.pieceLength : ℚ) (computeWindow g t).windowStart
        (computeWindow g t).windowEnd t.heapMB t.chunks t.mem t.hardPausedFlag
        t.enginePaused).enginePaused).2.2.2.2.2
    apply hs.mpr
    have hcwbps : (computeWindow g t).bytesPerSecond = tickBytesPerSecond g t := by
      unfold computeWindow
      dsimp only
    have hahead : (0 : ℚ) ≤
        (((max 0 ((scanForward t.bitfield (computeWindow g t).windowEnd
            (t.totalPieces : ℤ) (t.totalPieces + 1) (computeWindow g t).currentPiece
            (computeWindow g t).currentPiece) - (computeWindow g t).currentPiece) : ℤ) : ℚ)
          * (t.pieceLength : ℚ) / (computeWindow g t).bytesPerSecond) := by
      apply div_nonneg
      · apply mul_nonneg
        · exact_mod_cast le_max_left 0 _
        · exact Nat.cast_nonneg _
      · rw [hcwbps]
        exact le_of_lt hbpstick
    rw [hcfg, if_neg (ne_of_lt hnegsec)]
    linarith

/-- C10 witness: the negative buffer config and the permanently-true
buffer-full condition at a 60 GB file. -/
theorem c10_negativeAhead_witness :
    (getBufferConfig (60000000000 : ℚ)).aheadBytes < 0 ∧
    (getBufferConfig (60000000000 : ℚ)).aheadSeconds < 0 ∧
    (slidingWindowTick zeroG hugeT).bufferFull = true :=
  ⟨(c10_negativeAhead 60000000000 (by norm_num) zeroG hugeT
      (by norm_num [hugeT, boundaryT]) (by norm_num [hugeT, boundaryT]) rfl).1,
    (c10_negativeAhead 60000000000 (by norm_num) zeroG hugeT
      (by norm_num [hugeT, boundaryT]) (by norm_num [hugeT, boundaryT]) rfl).2.1,
    (c10_negativeAhead 60000000000 (by norm_num) zeroG hugeT
      (by norm_num [hugeT, boundaryT]) (by norm_num [hugeT, boundaryT]) rfl).2.2.2⟩
